import Mathlib

/-!
Verification of the TAP producer `tappp.hpp` (class `TAP::Context`).

The C++ header is embedded shallowly: the `Context` state is a structure,
every method becomes a pure function returning the new state together with
the list of TAP lines it prints, and methods that may throw return an
`Except` over the exception type `TAP::X`.  The counters `planned`, `run`
and `good` are C++ `unsigned int`s, so arithmetic on them is taken modulo
`UINT_MOD = 2 ^ 32`.
-/

namespace TAP

/-- Modulus of the 32-bit C++ `unsigned int` fields of `TAP::Context`. -/
def UINT_MOD : Nat := 2 ^ 32

/-- The exceptions of namespace `TAP::X` in tappp.hpp. -/
inductive X where
  | Planned
  | Finished
  | LatePlan
deriving DecidableEq, Repr

/-- The state of a `TAP::Context`: plan, counters, pending TODO directive and
the two flags.  The output stream is modelled by returning the printed lines
from each operation instead. -/
structure Context where
  planned : Nat := 0
  run : Nat := 0
  good : Nat := 0
  todo : String := ""
  have_plan : Bool := false
  finished : Bool := false
deriving DecidableEq, Repr

deriving instance DecidableEq for Except

/-- `Context::plan(unsigned int tests)`: checks `have_plan`, `finished` and
`run > 0` in this order, then prints the `1..tests` line and fixes the plan. -/
def Context.plan (c : Context) (tests : Nat) : Except X (Context × List String) :=
  if c.have_plan then .error .Planned
  else if c.finished then .error .Finished
  else if c.run > 0 then .error .LatePlan
  else .ok ({ c with planned := tests, have_plan := true },
    ["1.." ++ toString tests])

/-- `Context::plan(const skip_all&, const std::string&)`: prints the `1..0`
line (with the optional `# SKIP reason` tail) and sets `finished`.  The C++
code performs no check at all in this overload. -/
def Context.plan_skip_all (c : Context) (reason : String) : Context × List String :=
  ({ c with finished := true },
   ["1..0" ++ (if reason = "" then "" else " # SKIP " ++ reason)])

/-- `Context::summary()`: `good == (have_plan ? planned : run)`. -/
def Context.summary (c : Context) : Bool :=
  c.good == (if c.have_plan then c.planned else c.run)

/-- `Context::diag(message)`: prints `# message`; it never checks `finished`
and changes no state. -/
def Context.diag (c : Context) (message : String) : Context × List String :=
  (c, ["# " ++ message])

/-- `Context::done_testing()`: rejects a finished context, otherwise prints
the trailing plan line if none was printed yet, or a mismatch diagnostic if
the plan disagrees with `run`, and marks the context finished. -/
def Context.done_testing (c : Context) : Except X (Context × List String) :=
  if c.finished then .error .Finished
  else if !c.have_plan then
    .ok ({ c with finished := true }, ["1.." ++ toString c.run])
  else if c.planned ≠ c.run then
    .ok ({ c with finished := true },
      (c.diag ("Looks like you planned " ++ toString c.planned ++
        " tests but ran " ++ toString c.run)).2)
  else
    .ok ({ c with finished := true }, [])

/-- `Context::ok(bool is_ok, const std::string& message)`: rejects a finished
context; otherwise prints one `ok`/`not ok` line carrying the incremented
`run`, the message and, if a TODO directive is pending, the `# TODO` tail
(prefixed by a space only when the message is non-empty); the directive is
cleared, `run` is incremented (as a 32-bit unsigned) and `good` is
incremented exactly when `is_ok`; returns `is_ok`. -/
def Context.ok (c : Context) (is_ok : Bool) (message : String) :
    Except X (Bool × Context × List String) :=
  if c.finished then .error .Finished
  else .ok (is_ok,
    { c with run := (c.run + 1) % UINT_MOD,
             good := if is_ok then (c.good + 1) % UINT_MOD else c.good,
             todo := "" },
    [(if is_ok then "ok " else "not ok ") ++ toString ((c.run + 1) % UINT_MOD) ++
      " - " ++ message ++
      (if c.todo = "" then ""
       else (if message = "" then "" else " ") ++ "# TODO " ++ c.todo)])

/-- `Context::nok`: `ok` with the boolean negated. -/
def Context.nok (c : Context) (is_nok : Bool) (message : String) :
    Except X (Bool × Context × List String) :=
  c.ok (!is_nok) message

/-- `Context::pass`: unconditional `ok(true, message)`. -/
def Context.pass (c : Context) (message : String) :
    Except X (Bool × Context × List String) :=
  c.ok true message

/-- `Context::fail`: unconditional `ok(false, message)`. -/
def Context.fail (c : Context) (message : String) :
    Except X (Bool × Context × List String) :=
  c.ok false message

/-- `Context::TODO(reason)`: rejects a finished context, otherwise stores the
reason as the pending directive (an empty reason clears it). -/
def Context.TODO (c : Context) (reason : String) : Except X Context :=
  if c.finished then .error .Finished else .ok { c with todo := reason }

/-- The message built by `Context::SKIP(reason)` before delegating to `pass`. -/
def skip_message (reason : String) : String :=
  "# SKIP" ++ (if reason = "" then "" else " ") ++ reason

/-- `Context::SKIP(const std::string& reason)`: a `pass` whose message embeds
the SKIP marker and the reason. -/
def Context.SKIP (c : Context) (reason : String) :
    Except X (Bool × Context × List String) :=
  c.pass (skip_message reason)

/-- The `current_of` lambda inside `Context::SKIP(unsigned int, ...)`:
an optional separating space followed by the 1-based position `1+cur` out of
`how_many`. -/
def current_of (reason : String) (how_many cur : Nat) : String :=
  (if reason = "" then "" else " ") ++ toString (1 + cur) ++ "/" ++ toString how_many

/-- The loop of `Context::SKIP(unsigned int how_many, ...)`: `k` remaining
iterations starting at index `i`; each iteration performs
`SKIP(reason + current_of(i))` and an exception aborts the loop. -/
def SKIP_go (how_many : Nat) (reason : String) :
    Nat → Nat → Context → Except X (Context × List String)
  | _, 0, c => .ok (c, [])
  | i, k + 1, c =>
    match c.SKIP (reason ++ current_of reason how_many i) with
    | .error e => .error e
    | .ok (_, c1, l1) =>
      match SKIP_go how_many reason (i + 1) k c1 with
      | .error e => .error e
      | .ok (c2, l2) => .ok (c2, l1 ++ l2)

/-- `Context::SKIP(unsigned int how_many, const std::string& reason)`:
`how_many` `SKIP` calls, each annotated with its position. -/
def Context.SKIP_many (c : Context) (how_many : Nat) (reason : String) :
    Except X (Context × List String) :=
  SKIP_go how_many reason 0 how_many c

/-- `Context::BAIL(reason)`: rejects a finished context, otherwise prints the
`Bail out!` line (with the optional reason) and sets `finished`. -/
def Context.BAIL (c : Context) (reason : String) : Except X (Context × List String) :=
  if c.finished then .error .Finished
  else .ok ({ c with finished := true },
    ["Bail out!" ++ (if reason = "" then "" else " " ++ reason)])


/-- One successful state-changing (or diagnostic) operation of `TAP::Context`.
`nok`, `pass`, `fail` and single `SKIP` are instances of the `ok` case, to
which they delegate; the two printing constructors of `Context` are the
`plan` and `plan_skip_all` cases applied to the default state. -/
inductive Step : Context → Context → Prop where
  | plan : ∀ (c : Context) (n : Nat) (c' : Context) (ls : List String),
      Context.plan c n = .ok (c', ls) → Step c c'
  | plan_skip_all : ∀ (c : Context) (reason : String),
      Step c (Context.plan_skip_all c reason).1
  | done_testing : ∀ (c c' : Context) (ls : List String),
      Context.done_testing c = .ok (c', ls) → Step c c'
  | ok : ∀ (c : Context) (b : Bool) (m : String) (r : Bool) (c' : Context)
      (ls : List String), Context.ok c b m = .ok (r, c', ls) → Step c c'
  | TODO : ∀ (c : Context) (reason : String) (c' : Context),
      Context.TODO c reason = .ok c' → Step c c'
  | SKIP_many : ∀ (c : Context) (n : Nat) (reason : String) (c' : Context)
      (ls : List String), Context.SKIP_many c n reason = .ok (c', ls) → Step c c'
  | BAIL : ∀ (c : Context) (reason : String) (c' : Context) (ls : List String),
      Context.BAIL c reason = .ok (c', ls) → Step c c'
  | diag : ∀ (c : Context) (m : String), Step c (Context.diag c m).1

/-- A context reachable from the default-constructed `TAP::Context` by
successful operations. -/
def Reachable (c : Context) : Prop := Relation.ReflTransGen Step ({} : Context) c

/-- A step during which the 32-bit `run` counter does not wrap (it does not
decrease). -/
def StepNW (a b : Context) : Prop := Step a b ∧ a.run ≤ b.run

/-- A context reachable from the default-constructed `TAP::Context` without
ever wrapping the `run` counter. -/
def ReachableNW (c : Context) : Prop :=
  Relation.ReflTransGen StepNW ({} : Context) c

/-- Iterating a state transformer, used to build long executions. -/
def iterate (f : Context → Context) : Nat → Context → Context
  | 0, c => c
  | k + 1, c => iterate f k (f c)

/-- The state after one `ok(b, m)` call (identity on error). -/
def okStep (b : Bool) (m : String) (c : Context) : Context :=
  match c.ok b m with
  | .ok r => r.2.1
  | .error _ => c

/-- The context reached from a fresh `TAP::Context` by one passing assertion
followed by `2^32 - 1` failing ones. -/
def wrap_ctx : Context :=
  iterate (okStep false "") (UINT_MOD - 1) (okStep true "" {})

/-- Modelled from the spec: the subtest support (`Context::subtest` and the
injection-on-completion guard of tappp.hpp v0.2.0) is described in
`Documentation.md` and exercised by the test programs, but the v0.2.0 header
itself is not among the sources.  A subtest derived from a parent keeps its
own child context, the message destined for the parent's line, and whether
the one-time injection into the parent has already happened. -/
structure Subtest where
  child : Context
  message : String
  injected : Bool

/-- Modelled from the spec: completion of a subtest (explicit `done_testing`
on it or end of scope, whichever comes first) calls
`ok(child.summary(), message)` on the parent exactly once; a later completion
event on an already-injected subtest does nothing. -/
def Subtest.complete (st : Subtest) (parent : Context) :
    Except X (Subtest × Context × List String) :=
  if st.injected then .ok (st, parent, [])
  else
    match parent.ok st.child.summary st.message with
    | .error e => .error e
    | .ok (_, p2, ls) => .ok ({ st with injected := true }, p2, ls)
end TAP

namespace TAP

/-- C1: on an unfinished context, `Context::ok` increments `run` by one (as a
32-bit unsigned), increments `good` exactly when the assertion succeeded,
emits exactly one line whose tag follows the boolean and which carries the
post-increment `run` and the message, appends the pending TODO directive's
text when one is set and clears it, and returns the boolean; on a finished
context it fails with `TAP::X::Finished`. -/
theorem ok_spec (c : Context) (b : Bool) (m : String) :
    (c.finished = true → c.ok b m = .error .Finished) ∧
    (c.finished = false → ∃ c' line,
      c.ok b m = .ok (b, c', [line]) ∧
      c'.run = (c.run + 1) % UINT_MOD ∧
      c'.good = (if b then (c.good + 1) % UINT_MOD else c.good) ∧
      c'.todo = "" ∧
      c'.planned = c.planned ∧ c'.have_plan = c.have_plan ∧ c'.finished = false ∧
      line = (if b then "ok " else "not ok ") ++ toString ((c.run + 1) % UINT_MOD) ++
        " - " ++ m ++
        (if c.todo = "" then ""
         else (if m = "" then "" else " ") ++ "# TODO " ++ c.todo)) := by
  constructor
  · intro hf; simp [Context.ok, hf]
  · intro hf
    refine ⟨{ c with
              run := (c.run + 1) % UINT_MOD
              good := if b then (c.good + 1) % UINT_MOD else c.good
              todo := "" }, _,
           ?_, rfl, rfl, rfl, rfl, rfl, hf, rfl⟩
    simp [Context.ok, hf]

/-- Witness for C1 at concrete inputs: a finished context is rejected and a
fresh context records one passing assertion. -/
theorem ok_spec_witness :
    Context.ok { finished := true } true "x" = .error .Finished ∧
    (∃ c' line, Context.ok {} true "x" = .ok (true, c', [line]) ∧
      c'.run = (0 + 1) % UINT_MOD ∧
      c'.good = (if true then (0 + 1) % UINT_MOD else 0) ∧
      c'.todo = "" ∧
      c'.planned = 0 ∧ c'.have_plan = false ∧ c'.finished = false ∧
      line = (if true then "ok " else "not ok ") ++ toString ((0 + 1) % UINT_MOD) ++
        " - " ++ "x" ++
        (if "" = "" then ""
         else (if "x" = "" then "" else " ") ++ "# TODO " ++ "")) :=
  ⟨(ok_spec { finished := true } true "x").1 rfl,
   (ok_spec {} true "x").2 rfl⟩

/-- C2: `Context::plan(n)` fails with `Planned` when a plan is already set,
then (in this order) with `Finished` when the context is finished, with
`LatePlan` when `run > 0`, and otherwise emits the `1..n` count line and
fixes the plan to `n`. -/
theorem plan_spec (c : Context) (n : Nat) :
    (c.have_plan = true → c.plan n = .error .Planned) ∧
    (c.have_plan = false → c.finished = true → c.plan n = .error .Finished) ∧
    (c.have_plan = false → c.finished = false → 0 < c.run →
      c.plan n = .error .LatePlan) ∧
    (c.have_plan = false → c.finished = false → c.run = 0 →
      c.plan n = .ok ({ c with planned := n, have_plan := true },
        ["1.." ++ toString n])) := by
  refine ⟨fun h1 => ?_, fun h1 h2 => ?_, fun h1 h2 h3 => ?_, fun h1 h2 h3 => ?_⟩
  · simp [Context.plan, h1]
  · simp [Context.plan, h1, h2]
  · simp [Context.plan, h1, h2, h3]
  · simp [Context.plan, h1, h2, h3]

/-- Witness for C2 at concrete inputs: all four branches of `plan`. -/
theorem plan_spec_witness :
    Context.plan { have_plan := true } 5 = .error .Planned ∧
    Context.plan { finished := true } 5 = .error .Finished ∧
    Context.plan { run := 1 } 5 = .error .LatePlan ∧
    Context.plan {} 5 = .ok ({ planned := 5, have_plan := true },
      ["1.." ++ toString 5]) :=
  ⟨(plan_spec { have_plan := true } 5).1 rfl,
   (plan_spec { finished := true } 5).2.1 rfl rfl,
   (plan_spec { run := 1 } 5).2.2.1 rfl rfl (by decide),
   (plan_spec {} 5).2.2.2 rfl rfl rfl⟩

/-- C3: `Context::done_testing` fails with `Finished` when already finished;
otherwise it emits the trailing `1..run` count line when no plan was set,
emits exactly one mismatch diagnostic (and no count line) when the plan was
set and differs from `run`, emits nothing when the plan was met, and in all
success cases marks the context finished. -/
theorem done_testing_spec (c : Context) :
    (c.finished = true → c.done_testing = .error .Finished) ∧
    (c.finished = false → c.have_plan = false →
      c.done_testing = .ok ({ c with finished := true },
        ["1.." ++ toString c.run])) ∧
    (c.finished = false → c.have_plan = true → c.planned ≠ c.run →
      c.done_testing = .ok ({ c with finished := true },
        ["# " ++ ("Looks like you planned " ++ toString c.planned ++
          " tests but ran " ++ toString c.run)])) ∧
    (c.finished = false → c.have_plan = true → c.planned = c.run →
      c.done_testing = .ok ({ c with finished := true }, [])) := by
  refine ⟨fun h1 => ?_, fun h1 h2 => ?_, fun h1 h2 h3 => ?_, fun h1 h2 h3 => ?_⟩
  · simp [Context.done_testing, h1]
  · simp [Context.done_testing, h1, h2]
  · simp [Context.done_testing, Context.diag, h1, h2, h3]
  · simp [Context.done_testing, h1, h2, h3]

/-- Witness for C3 at concrete inputs: all four branches of `done_testing`. -/
theorem done_testing_spec_witness :
    Context.done_testing { finished := true } = .error .Finished ∧
    Context.done_testing { run := 3 } = .ok ({ run := 3, finished := true },
      ["1.." ++ toString 3]) ∧
    Context.done_testing { planned := 2, run := 1, have_plan := true } =
      .ok ({ planned := 2, run := 1, have_plan := true, finished := true },
        ["# " ++ ("Looks like you planned " ++ toString 2 ++
          " tests but ran " ++ toString 1)]) ∧
    Context.done_testing { planned := 2, run := 2, have_plan := true } =
      .ok ({ planned := 2, run := 2, have_plan := true, finished := true }, []) :=
  ⟨(done_testing_spec { finished := true }).1 rfl,
   (done_testing_spec { run := 3 }).2.1 rfl rfl,
   (done_testing_spec { planned := 2, run := 1, have_plan := true }).2.2.1
     rfl rfl (by decide),
   (done_testing_spec { planned := 2, run := 2, have_plan := true }).2.2.2
     rfl rfl rfl⟩

/-- C4: `Context::summary` returns true exactly when `good` equals the plan
when one is set and equals `run` otherwise; in particular (given the
representation fact `good ≤ run`) a context with a plan that has not yet run
all planned assertions reports false. -/
theorem summary_spec (c : Context) :
    (c.summary = true ↔ c.good = (if c.have_plan then c.planned else c.run)) ∧
    (c.good ≤ c.run → c.have_plan = true → c.run < c.planned →
      c.summary = false) := by
  constructor
  · simp [Context.summary]
  · intro h1 h2 h3
    simp only [Context.summary, h2, if_true, beq_eq_false_iff_ne, ne_eq]
    omega

/-- Witness for C4 at a concrete input: plan 2, one successful assertion run
so far, `summary` is false. -/
theorem summary_spec_witness :
    (Context.summary { planned := 2, run := 1, good := 1, have_plan := true } = true ↔
      (1 : Nat) = (if true then 2 else 1)) ∧
    Context.summary { planned := 2, run := 1, good := 1, have_plan := true } = false :=
  ⟨(summary_spec { planned := 2, run := 1, good := 1, have_plan := true }).1,
   (summary_spec { planned := 2, run := 1, good := 1, have_plan := true }).2
     (by decide) rfl (by decide)⟩

/-- C5 (code bug): evaluating the code at the failing input.  On a fresh
context, `TODO("t")` followed by a failing `ok` prints the line with the
TODO directive and clears the directive, but `summary` flips from true to
false: the code counts a failing TODO assertion against the session, while
`Documentation.md` ("TODO tests count as successful") and the spec say the
failure must leave overall success unaffected. -/
theorem todo_failure_counts_against_summary :
    Context.summary { todo := "t" } = true ∧
    Context.TODO {} "t" = .ok { todo := "t" } ∧
    Context.ok { todo := "t" } false "m" =
      .ok (false, { run := 1 }, ["not ok 1 - m # TODO t"]) ∧
    Context.summary { run := 1 } = false := by
  refine ⟨by decide, by decide, ?_, by decide⟩
  decide

/-- C6 (code bug): evaluating the code at the failing input.  `BAIL` leaves a
finished context, and the skip-all overload of `plan` on that finished
context is silently accepted: it emits a second plan line `1..0 # SKIP r`
and reports no error (its type cannot even fail), although every other
state-changing operation is rejected with `TAP::X::Finished`. -/
theorem plan_skip_all_ignores_finished :
    Context.BAIL {} "" = .ok ({ finished := true }, ["Bail out!"]) ∧
    Context.plan_skip_all { finished := true } "r" =
      ({ finished := true }, ["1..0 # SKIP r"]) := by
  refine ⟨by decide, by decide⟩

/-- C10: `Context::SKIP(0, reason)` is a complete no-op on any context,
finished or not: the loop body never runs, so no line is emitted, no state
changes and no error is raised — the `finished` check inside `ok` that a
single `SKIP` would perform is bypassed. -/
theorem SKIP_many_zero_noop (c : Context) (reason : String) :
    c.SKIP_many 0 reason = .ok (c, []) := rfl

end TAP

namespace TAP

/-- One `SKIP` call on an unfinished context with no pending directive:
a successful `pass` whose line carries the composed skip message. -/
lemma SKIP_step (c : Context) (r : String) (hf : c.finished = false)
    (ht : c.todo = "") :
    c.SKIP r = .ok (true,
      { c with
        run := (c.run + 1) % UINT_MOD
        good := (c.good + 1) % UINT_MOD
        todo := "" },
      ["ok " ++ toString ((c.run + 1) % UINT_MOD) ++ " - " ++ skip_message r]) := by
  simp [Context.SKIP, Context.pass, Context.ok, hf, ht, String.append_empty]

/-- Closed form of the loop of `Context::SKIP(unsigned int, ...)`: `k`
iterations starting at index `i` perform `k` successful passes, each line
carrying the skip message for its 1-based position. -/
lemma SKIP_go_spec (how_many : Nat) (reason : String) :
    ∀ (k i : Nat) (c : Context), c.finished = false → c.todo = "" →
      c.run < UINT_MOD → c.good < UINT_MOD →
      SKIP_go how_many reason i k c =
        .ok ({ c with
               run := (c.run + k) % UINT_MOD
               good := (c.good + k) % UINT_MOD },
          (List.range k).map (fun j =>
            "ok " ++ toString ((c.run + (j + 1)) % UINT_MOD) ++ " - " ++
              skip_message (reason ++ current_of reason how_many (i + j)))) := by
  intro k
  induction k with
  | zero =>
    intro i c hf ht hr hg
    simp only [SKIP_go, Nat.add_zero, Nat.mod_eq_of_lt hr, Nat.mod_eq_of_lt hg,
      List.range_zero, List.map_nil]
  | succ k ih =>
    intro i c hf ht hr hg
    have hm : 0 < UINT_MOD := by decide
    rw [SKIP_go, SKIP_step c _ hf ht]
    dsimp only
    rw [ih (i + 1)
      { c with
        run := (c.run + 1) % UINT_MOD
        good := (c.good + 1) % UINT_MOD
        todo := "" }
      hf rfl (Nat.mod_lt _ hm) (Nat.mod_lt _ hm)]
    dsimp only
    simp [List.range_succ_eq_map, List.map_map, Function.comp_def,
      Nat.mod_add_mod, ht, Nat.add_assoc, Nat.add_comm, Nat.add_left_comm]
    intro a ha
    have h2 : (a + (1 + (c.run + 1) % UINT_MOD)) % UINT_MOD =
        (a + (c.run + 2)) % UINT_MOD := by
      simp only [UINT_MOD]
      omega
    rw [h2]

end TAP

namespace TAP

/-- C7: on an unfinished context with no pending directive (32-bit counter
values), `Context::SKIP(n, reason)` performs exactly `n` successful passes:
`run` and `good` both advance by `n`, and the `j`-th emitted line (0-based)
is a successful `ok` line whose message carries the SKIP marker, the reason
and its 1-based position out of `n` via `current_of` (e.g. `2/3`). -/
theorem SKIP_many_spec (c : Context) (n : Nat) (reason : String)
    (hf : c.finished = false) (ht : c.todo = "")
    (hr : c.run < UINT_MOD) (hg : c.good < UINT_MOD) :
    c.SKIP_many n reason =
      .ok ({ c with
             run := (c.run + n) % UINT_MOD
             good := (c.good + n) % UINT_MOD },
        (List.range n).map (fun j =>
          "ok " ++ toString ((c.run + (j + 1)) % UINT_MOD) ++ " - " ++
            skip_message (reason ++ current_of reason n j))) := by
  have h := SKIP_go_spec n reason n 0 c hf ht hr hg
  simpa [Context.SKIP_many, Nat.zero_add] using h

/-- Witness for C7 at the claim's example: `SKIP(3, "r")` on a fresh context
emits exactly three successful lines annotated `1/3`, `2/3`, `3/3`. -/
theorem SKIP_many_spec_witness :
    Context.SKIP_many {} 3 "r" = .ok ({ run := 3, good := 3 },
      ["ok 1 - # SKIP r 1/3", "ok 2 - # SKIP r 2/3", "ok 3 - # SKIP r 3/3"]) := by
  have h := SKIP_many_spec {} 3 "r" rfl rfl (by decide) (by decide)
  rw [h]
  decide

end TAP

namespace TAP

/-- `Context::pass` on an unfinished context: the successful `ok(true, ...)`,
with no assumption on the pending directive. -/
lemma pass_success (c : Context) (m : String) (hf : c.finished = false) :
    c.pass m = .ok (true,
      { c with
        run := (c.run + 1) % UINT_MOD
        good := (c.good + 1) % UINT_MOD
        todo := "" },
      ["ok " ++ toString ((c.run + 1) % UINT_MOD) ++ " - " ++ m ++
        (if c.todo = "" then ""
         else (if m = "" then "" else " ") ++ "# TODO " ++ c.todo)]) := by
  simp [Context.pass, Context.ok, hf]

/-- Counter bookkeeping of the `SKIP(unsigned, ...)` loop, without any
assumption on the pending directive. -/
lemma SKIP_go_counters (how_many : Nat) (reason : String) :
    ∀ (k i : Nat) (c : Context), c.finished = false →
      c.run < UINT_MOD → c.good < UINT_MOD →
      ∃ ls, SKIP_go how_many reason i k c =
        .ok ({ c with
               run := (c.run + k) % UINT_MOD
               good := (c.good + k) % UINT_MOD
               todo := if k = 0 then c.todo else "" }, ls) := by
  intro k
  induction k with
  | zero =>
    intro i c hf hr hg
    refine ⟨[], ?_⟩
    simp [SKIP_go, Nat.mod_eq_of_lt hr, Nat.mod_eq_of_lt hg]
  | succ k ih =>
    intro i c hf hr hg
    have hm : 0 < UINT_MOD := by decide
    obtain ⟨ls, hls⟩ := ih (i + 1)
      { c with
        run := (c.run + 1) % UINT_MOD
        good := (c.good + 1) % UINT_MOD
        todo := "" } hf (Nat.mod_lt _ hm) (Nat.mod_lt _ hm)
    have e1 : ((c.run + 1) % UINT_MOD + k) % UINT_MOD =
        (c.run + (k + 1)) % UINT_MOD := by
      simp only [UINT_MOD]; omega
    have e2 : ((c.good + 1) % UINT_MOD + k) % UINT_MOD =
        (c.good + (k + 1)) % UINT_MOD := by
      simp only [UINT_MOD]; omega
    rw [SKIP_go, Context.SKIP, pass_success c _ hf]
    dsimp only at hls ⊢
    rw [hls]
    dsimp only
    rw [e1, e2, ite_self, if_neg (Nat.succ_ne_zero k)]
    exact ⟨_, rfl⟩

end TAP

namespace TAP

/-- `Context::ok` on a finished context: the `Finished` error. -/
lemma ok_finished (c : Context) (b : Bool) (m : String) (hf : c.finished = true) :
    c.ok b m = .error .Finished := by
  rw [Context.ok, if_pos hf]

/-- `Context::ok` on an unfinished context: the full successful result. -/
lemma ok_eq (c : Context) (b : Bool) (m : String) (hf : c.finished = false) :
    c.ok b m = .ok (b,
      { c with
        run := (c.run + 1) % UINT_MOD
        good := if b then (c.good + 1) % UINT_MOD else c.good
        todo := "" },
      [(if b then "ok " else "not ok ") ++ toString ((c.run + 1) % UINT_MOD) ++
        " - " ++ m ++
        (if c.todo = "" then ""
         else (if m = "" then "" else " ") ++ "# TODO " ++ c.todo)]) := by
  rw [Context.ok, if_neg (by simp [hf])]

/-- Arithmetic core: if `good ≤ run < 2^32` and the 32-bit `run` counter does
not decrease when both counters advance by `k`, then `good ≤ run` still holds
afterwards. -/
lemma counters_mono (g r k : Nat) (hgr : g ≤ r) (hr : r < UINT_MOD)
    (hle : r ≤ (r + k) % UINT_MOD) :
    (g + k) % UINT_MOD ≤ (r + k) % UINT_MOD := by
  simp only [UINT_MOD] at *
  omega

/-- Every single successful operation preserves `good ≤ run` together with
the 32-bit bound on `run`, provided it does not wrap the `run` counter. -/
lemma step_preserves (a b : Context) (h : Step a b) (hga : a.good ≤ a.run)
    (hra : a.run < UINT_MOD) (hle : a.run ≤ b.run) :
    b.good ≤ b.run ∧ b.run < UINT_MOD := by
  cases h with
  | plan n c' ls heq =>
    simp only [Context.plan] at heq
    split_ifs at heq
    injection heq with hpair
    injection hpair with hb hls
    subst hb
    exact ⟨hga, hra⟩
  | plan_skip_all reason =>
    exact ⟨hga, hra⟩
  | done_testing c' ls heq =>
    simp only [Context.done_testing] at heq
    split_ifs at heq <;>
      (injection heq with hpair; injection hpair with hb hls; subst hb;
       exact ⟨hga, hra⟩)
  | ok bb m r c' ls heq =>
    cases hfin : a.finished with
    | true =>
      rw [ok_finished a bb m hfin] at heq
      injection heq
    | false =>
      rw [ok_eq a bb m hfin] at heq
      injection heq with hpair
      injection hpair with hr1 hrest
      injection hrest with hb hls
      subst hb
      refine ⟨?_, Nat.mod_lt _ (by decide)⟩
      cases bb with
      | true =>
        simpa using counters_mono a.good a.run 1 hga hra hle
      | false =>
        simpa using le_trans hga hle
  | TODO reason c' heq =>
    simp only [Context.TODO] at heq
    split_ifs at heq
    injection heq with hb
    subst hb
    exact ⟨hga, hra⟩
  | SKIP_many n reason c' ls heq =>
    cases n with
    | zero =>
      simp only [Context.SKIP_many, SKIP_go] at heq
      injection heq with hpair
      injection hpair with hb hls
      subst hb
      exact ⟨hga, hra⟩
    | succ n1 =>
      cases hfin : a.finished with
      | true =>
        rw [Context.SKIP_many, SKIP_go, Context.SKIP, Context.pass,
          ok_finished a _ _ hfin] at heq
        injection heq
      | false =>
        obtain ⟨ls2, hls2⟩ := SKIP_go_counters (n1 + 1) reason (n1 + 1) 0 a
          hfin hra (lt_of_le_of_lt hga hra)
        rw [Context.SKIP_many, hls2] at heq
        injection heq with hpair
        injection hpair with hb hls
        subst hb
        refine ⟨?_, Nat.mod_lt _ (by decide)⟩
        exact counters_mono a.good a.run (n1 + 1) hga hra hle
  | BAIL reason c' ls heq =>
    simp only [Context.BAIL] at heq
    split_ifs at heq <;>
      (injection heq with hpair; injection hpair with hb hls; subst hb;
       exact ⟨hga, hra⟩)
  | diag m =>
    exact ⟨hga, hra⟩

/-- C8 (amended): `good ≤ run` holds in every context reachable from the
default-constructed `TAP::Context` by an execution during which the 32-bit
`run` counter never wraps around (each operation leaves `run` no smaller);
without that proviso the invariant can be violated, see the wraparound
counterexample. -/
theorem good_le_run_of_no_wrap (c : Context) (h : ReachableNW c) :
    c.good ≤ c.run := by
  have h2 : Relation.ReflTransGen StepNW ({} : Context) c := h
  clear h
  have h3 : c.good ≤ c.run ∧ c.run < UINT_MOD := by
    induction h2 with
    | refl => exact ⟨Nat.le_refl 0, by decide⟩
    | tail hab hbc ih => exact step_preserves _ _ hbc.1 ih.1 ih.2 hbc.2
  exact h3.1

/-- Witness for C8's amended theorem: the empty no-wrap execution. -/
theorem good_le_run_of_no_wrap_witness :
    ({} : Context).good ≤ ({} : Context).run :=
  good_le_run_of_no_wrap {} Relation.ReflTransGen.refl

end TAP

namespace TAP

/-- A failing `ok` on an unfinished context only advances `run` (as a 32-bit
unsigned) and clears the directive. -/
lemma okStep_false (c : Context) (hf : c.finished = false) :
    okStep false "" c = { c with
      run := (c.run + 1) % UINT_MOD
      todo := "" } := by
  simp [okStep, ok_eq c false "" hf]

/-- Closed form of `k` failing assertions in a row. -/
lemma iterate_okStep_false :
    ∀ (k : Nat) (c : Context), c.finished = false → c.todo = "" →
      c.run < UINT_MOD →
      iterate (okStep false "") k c = { c with run := (c.run + k) % UINT_MOD } := by
  intro k
  induction k with
  | zero =>
    intro c hf ht hr
    simp [iterate, Nat.mod_eq_of_lt hr]
  | succ k ih =>
    intro c hf ht hr
    have e1 : ((c.run + 1) % UINT_MOD + k) % UINT_MOD =
        (c.run + (k + 1)) % UINT_MOD := by
      simp only [UINT_MOD]; omega
    rw [iterate, okStep_false c hf]
    rw [ih { c with
             run := (c.run + 1) % UINT_MOD
             todo := "" } hf rfl (Nat.mod_lt _ (by decide))]
    dsimp only
    rw [e1, ← ht]

/-- A successful `ok` call is a `Step`, so it preserves reachability of
unfinished contexts. -/
lemma reachable_okStep (c : Context) (b : Bool) (m : String) (h : Reachable c)
    (hf : c.finished = false) : Reachable (okStep b m c) := by
  refine Relation.ReflTransGen.tail h ?_
  refine Step.ok c b m b (okStep b m c)
    [(if b then "ok " else "not ok ") ++ toString ((c.run + 1) % UINT_MOD) ++
      " - " ++ m ++
      (if c.todo = "" then ""
       else (if m = "" then "" else " ") ++ "# TODO " ++ c.todo)] ?_
  rw [ok_eq c b m hf, okStep, ok_eq c b m hf]

/-- Iterated failing assertions keep the context reachable. -/
lemma reachable_iterate :
    ∀ (k : Nat) (c : Context), Reachable c → c.finished = false →
      Reachable (iterate (okStep false "") k c) := by
  intro k
  induction k with
  | zero =>
    intro c h hf
    simpa [iterate] using h
  | succ k ih =>
    intro c h hf
    have hf1 : (okStep false "" c).finished = false := by
      rw [okStep_false c hf]
      exact hf
    rw [iterate]
    exact ih (okStep false "" c) (reachable_okStep c false "" h hf) hf1

/-- C8 (counterexample): `good ≤ run` does not hold in every reachable state.
After one passing assertion and `2^32 - 1` failing ones — a state reachable
by `Context::ok` steps — the 32-bit `run` counter has wrapped around to `0`
while `good` is still `1`, so `good ≤ run` fails. -/
theorem good_le_run_wraparound_cex :
    Reachable wrap_ctx ∧ ¬ wrap_ctx.good ≤ wrap_ctx.run := by
  have h0 : okStep true "" {} = ({ run := 1, good := 1 } : Context) := by decide
  have hval : wrap_ctx = { good := 1 } := by
    show iterate (okStep false "") (UINT_MOD - 1) (okStep true "" {}) = _
    rw [h0, iterate_okStep_false (UINT_MOD - 1) { run := 1, good := 1 }
      rfl rfl (by decide)]
    decide
  constructor
  · have hr0 : Reachable (okStep true "" {}) :=
      reachable_okStep {} true "" Relation.ReflTransGen.refl rfl
    have hres := reachable_iterate (UINT_MOD - 1) (okStep true "" {}) hr0
      (by rw [h0])
    exact hres
  · rw [hval]
    decide

end TAP

namespace TAP

/-- C9: completing a subtest injects `ok(child.summary(), message)` into the
unfinished parent exactly once: the parent's `run` counter advances by
exactly one (regardless of the child's own line count, which the injection
never consults), its `good` advances exactly when the child's summary is
true, exactly one line is emitted at the parent, and a second completion
event is a no-op on any context — double injection cannot occur. -/
theorem subtest_injects_exactly_once (st : Subtest) (parent : Context)
    (hi : st.injected = false) (hp : parent.finished = false) :
    ∃ st2 parent2 line,
      st.complete parent = .ok (st2, parent2, [line]) ∧
      parent2.run = (parent.run + 1) % UINT_MOD ∧
      parent2.good = (if st.child.summary then (parent.good + 1) % UINT_MOD
        else parent.good) ∧
      parent2.finished = false ∧
      st2.injected = true ∧
      (∀ q : Context, st2.complete q = .ok (st2, q, [])) := by
  refine ⟨{ st with injected := true },
    { parent with
      run := (parent.run + 1) % UINT_MOD
      good := if st.child.summary then (parent.good + 1) % UINT_MOD
        else parent.good
      todo := "" },
    (if st.child.summary then "ok " else "not ok ") ++
      toString ((parent.run + 1) % UINT_MOD) ++ " - " ++ st.message ++
      (if parent.todo = "" then ""
       else (if st.message = "" then "" else " ") ++ "# TODO " ++ parent.todo),
    ?_, rfl, rfl, hp, rfl, fun q => rfl⟩
  rw [Subtest.complete, if_neg (by simp [hi]), ok_eq parent _ _ hp]

/-- Witness for C9 at concrete inputs: a fresh subtest over a fresh parent. -/
theorem subtest_injects_exactly_once_witness :
    ∃ st2 parent2 line,
      Subtest.complete ⟨{ run := 2, good := 2, have_plan := true, planned := 2 },
        "sub", false⟩ {} = .ok (st2, parent2, [line]) ∧
      parent2.run = (0 + 1) % UINT_MOD ∧
      parent2.good =
        (if Context.summary { run := 2, good := 2, have_plan := true, planned := 2 }
         then (0 + 1) % UINT_MOD else 0) ∧
      parent2.finished = false ∧
      st2.injected = true ∧
      (∀ q : Context, st2.complete q = .ok (st2, q, [])) :=
  subtest_injects_exactly_once
    ⟨{ run := 2, good := 2, have_plan := true, planned := 2 }, "sub", false⟩ {}
    rfl rfl

end TAP
